import Mathlib

/-!
Verification development for the ArtiVC repository core: the backend-agnostic
Repository transfer contract (Upload / Download / Delete / Stat / List), the
flat-key listing normalizer, the version resolver (`latest` pointer), the
artifact-manager upload publish step, and the `list` CLI command.

The repository's visible Go sources are `cmd/list.go` (the CLI command,
embedded below as `listRun`) and `internal/repository/repo_integration_test.go`
(the integration tests the explicit claims quote).  The Repository backends,
the Normalizer, the Version Resolver and the Artifact Manager are consumed
through interfaces only, so those components are modelled from the spec, as
marked on each definition.
-/

namespace ArtiVC

/-- Byte contents of a file, one natural number per byte. -/
abbrev Bytes := List Nat

/-- Error kinds of the repository / artifact layers (spec section 7). -/
inductive RepoError where
  | notFound
  | refNotFound
  | noVersions
  | ioError
  | backendError
deriving DecidableEq, Repr

/-- Result unit of `Stat` and element of `List` (spec section 3):
`Name` is the last path component, `IsDir` classifies file vs directory,
`Size` in bytes.  (`ModTime` is real wall-clock time and is not modelled;
no claim mentions it.) -/
structure FileInfo where
  name : String
  isDir : Bool
  size : Nat
deriving DecidableEq, Repr

/-- If the first list is a prefix of the second (on the `/`-delimiter
boundary the caller arranges), return the remainder; otherwise `none`.
This is the delimiter-boundary check of the normalizer (spec section 4.2). -/
def stripPref : List Char → List Char → Option (List Char)
  | [], k => some k
  | _ :: _, [] => none
  | p :: ps, c :: cs => if p = c then stripPref ps cs else none

/-- Split a character list on `/` into path segments. -/
def segments : List Char → List (List Char)
  | [] => [[]]
  | c :: cs =>
      let rest := segments cs
      if c = '/' then [] :: rest
      else
        match rest with
        | [] => [[c]]
        | s :: ss => (c :: s) :: ss

/-- The last path component of a slash-separated RepoPath
(`filepath.Base` in the integration test). -/
def lastSegment (p : String) : String :=
  ⟨(segments p.data).getLastD []⟩

/-- First segment of a key suffix: the name up to the first `/`, and
whether a `/` follows (i.e. whether the entry is a pseudo-directory). -/
def headSeg : List Char → List Char × Bool
  | [] => ([], false)
  | c :: cs =>
      if c = '/' then ([], true)
      else
        let r := headSeg cs
        (c :: r.1, r.2)

/-- Modelled from the spec: a Repository's persisted content as a flat map
from RepoPath keys to byte contents (spec sections 3, 4.1, 4.2: object
storage exposes only flat keys; the local backend satisfies the same
contract).  The backend implementations are not part of the visible
sources; only their integration tests are. -/
structure RepoState where
  objects : List (String × Bytes)
deriving DecidableEq, Repr

/-- The empty repository. -/
def emptyRepo : RepoState := ⟨[]⟩

/-- Look up the value stored under key `p` in an association list. -/
def lookupKey {α : Type} (p : String) : List (String × α) → Option α
  | [] => none
  | kv :: rest => if kv.1 = p then some kv.2 else lookupKey p rest

/-- Store `b` under key `p`, overwriting any existing object at that exact
path (spec section 4.1: Upload overwrites). -/
def setKey {α : Type} (p : String) (b : α) (l : List (String × α)) :
    List (String × α) :=
  (p, b) :: l.filter (fun kv => kv.1 != p)

/-- Modelled from the spec: `Upload(localPath, repoPath)` streams the local
file's bytes to `repoPath`, overwriting any existing object there
(spec section 4.1). -/
def RepoState.upload (content : Bytes) (p : String) (s : RepoState) :
    RepoState :=
  ⟨setKey p content s.objects⟩

/-- Modelled from the spec: `Download(repoPath, localPath)` is the inverse
of Upload; it fails with `NotFoundError` if `repoPath` does not resolve to
an object (spec section 4.1).  The produced local file is its byte value. -/
def RepoState.download (p : String) (s : RepoState) : Except RepoError Bytes :=
  match lookupKey p s.objects with
  | some b => .ok b
  | none => .error .notFound

/-- Modelled from the spec: `Delete(repoPath)` removes the object at
`repoPath`; deleting a non-existent object is not an error (spec 4.1). -/
def RepoState.delete (p : String) (s : RepoState) : RepoState :=
  ⟨s.objects.filter (fun kv => kv.1 != p)⟩

/-- Whether some stored key lies strictly under `p/` — `p` denotes an
existing (pseudo-)directory. -/
def dirExists (p : String) (s : RepoState) : Bool :=
  s.objects.any (fun kv => (stripPref (p.data ++ ['/']) kv.1.data).isSome)

/-- Modelled from the spec: `Stat(repoPath)` returns a `FileInfo` for the
object or pseudo-directory at that exact path and fails with
`NotFoundError` if nothing exists there; `Name` is the last path
component (spec sections 3, 4.1). -/
def RepoState.stat (p : String) (s : RepoState) : Except RepoError FileInfo :=
  match lookupKey p s.objects with
  | some b => .ok ⟨lastSegment p, false, b.length⟩
  | none =>
      if dirExists p s then .ok ⟨lastSegment p, true, 0⟩
      else .error .notFound

/-- Append a listing entry unless an equal-named entry of the same kind is
already present: three keys under `dir/3/` collapse into a single
deduplicated pseudo-directory entry (spec section 4.2). -/
def insertEntry (acc : List FileInfo) (e : FileInfo) : List FileInfo :=
  if acc.any (fun x => x.name = e.name && x.isDir = e.isDir) then acc
  else acc ++ [e]

/-- Listing entry derived from one key suffix under the queried prefix:
a suffix with no further `/` is a file entry; otherwise its first segment
becomes a pseudo-directory entry (spec section 4.2). -/
def childEntry (suf : List Char) (b : Bytes) : FileInfo :=
  let r := headSeg suf
  if r.2 then ⟨⟨r.1⟩, true, 0⟩ else ⟨⟨r.1⟩, false, b.length⟩

/-- Modelled from the spec: `List(repoPath)` — the Normalizer enumerates
all keys with prefix `p/` (delimiter-boundary exact), groups them by next
path segment into file and deduplicated pseudo-directory entries, and
returns only immediate children; a non-existent path yields an empty slice
and no error (spec sections 4.1, 4.2). -/
def RepoState.list (p : String) (s : RepoState) :
    Except RepoError (List FileInfo) :=
  .ok ((s.objects.filterMap
          (fun kv => (stripPref (p.data ++ ['/']) kv.1.data).map
            (fun suf => (suf, kv.2)))).foldl
        (fun acc sb => insertEntry acc (childEntry sb.1 sb.2)) [])

/-- The set of RepoPaths belonging to one resolved version (spec section 3). -/
abbrev Manifest := List String

/-- Modelled from the spec: version bookkeeping of a repository — the
stored manifests keyed by ref, and the `latest` pointer recording the most
recently completed version write (spec sections 3, 4.3, 6). -/
structure VersionState where
  manifests : List (String × Manifest)
  latestPtr : Option String
deriving DecidableEq, Repr

/-- A repository that has never had a successful upload. -/
def emptyVersions : VersionState := ⟨[], none⟩

/-- Modelled from the spec: `core.RefLatest`, the literal sentinel tag
`latest` (spec sections 1, 3; `cmd/list.go` names the constant but its
definition is outside the visible sources). -/
def RefLatest : String := "latest"

/-- Modelled from the spec: the atomic publish step of a completed
version write — store the manifest under `ref` and update the `latest`
pointer, last-writer-wins (spec sections 4.3, 4.4). -/
def publishVersion (ref : String) (m : Manifest) (vs : VersionState) :
    VersionState :=
  ⟨setKey ref m vs.manifests, some ref⟩

/-- Modelled from the spec: the Version Resolver (spec section 4.3).
`latest` reads the pointer and fails with `NoVersionsError` when the
repository has never had a successful upload; an explicit ref looks up its
manifest and fails with `RefNotFoundError` when absent. -/
def resolve (ref : String) (vs : VersionState) : Except RepoError Manifest :=
  if ref = RefLatest then
    match vs.latestPtr with
    | none => .error .noVersions
    | some r =>
        match lookupKey r vs.manifests with
        | some m => .ok m
        | none => .error .refNotFound
  else
    match lookupKey ref vs.manifests with
    | some m => .ok m
    | none => .error .refNotFound

/-- Full artifact-level state: stored objects plus version bookkeeping. -/
structure ArtifactState where
  repo : RepoState
  versions : VersionState
deriving DecidableEq, Repr

/-- Modelled from the spec: write every file of an Upload via
`Repository.Upload`.  Each planned file carries its transfer outcome:
`some bytes` is a successful transfer of those bytes, `none` a transfer
failure.  Returns whether all writes succeeded, together with the
resulting object store (already-written files remain on failure,
spec sections 4.4, 5). -/
def writeFiles : List (String × Option Bytes) → RepoState → Bool × RepoState
  | [], r => (true, r)
  | (p, some b) :: rest, r => writeFiles rest (RepoState.upload b p r)
  | (_, none) :: _, r => (false, r)

/-- Modelled from the spec: Artifact Manager `Upload` — write every file,
then publish the manifest and advance the `latest` pointer only after all
file writes succeed; a failure partway through must not write the
manifest or touch the pointer (spec sections 4.4, 5). -/
def uploadArtifact (files : List (String × Option Bytes)) (ref : String)
    (st : ArtifactState) : Bool × ArtifactState :=
  let w := writeFiles files st.repo
  if w.1 then
    (true, ⟨w.2, publishVersion ref (files.map Prod.fst) st.versions⟩)
  else (false, ⟨w.2, st.versions⟩)

/-- The external collaborators the `list` command consumes
(`cmd/list.go`): the result of `core.LoadConfig ""`, the result of
`core.NewArtifactManager config`, and the error result (if any) of
`mngr.List ref`.  Config and manager values are abstracted as strings. -/
structure ListEnv where
  loadConfig : Except String String
  newManager : String → Except String String
  listResult : String → String → Option String

/-- Observable call events of one run of the `list` command, in order. -/
inductive Event where
  | loadConfigCall
  | newManagerCall (config : String)
  | listCall (mngr ref : String)
deriving DecidableEq, Repr

/-- Observable outcome of one run of the `list` command: the lines written
to standard output and standard error, the exit code passed to `os.Exit`
(when called), and the collaborator calls made, in order. -/
structure CmdTrace where
  stdout : List String
  stderr : List String
  exitCode : Option Nat
  events : List Event
deriving DecidableEq, Repr

/-- Body of `list` in `cmd/list.go` after argument validation:
`LoadConfig`, then `NewArtifactManager`, then `mngr.List ref`; each error
is printed to standard output as `list <err> \n` (`fmt.Printf`) and the
function returns without exiting. -/
def listResolve (env : ListEnv) (ref : String) : CmdTrace :=
  match env.loadConfig with
  | .error e =>
      ⟨["list " ++ e ++ " \n"], [], none, [.loadConfigCall]⟩
  | .ok config =>
      match env.newManager config with
      | .error e =>
          ⟨["list " ++ e ++ " \n"], [], none,
            [.loadConfigCall, .newManagerCall config]⟩
      | .ok mngr =>
          match env.listResult mngr ref with
          | some e =>
              ⟨["list " ++ e ++ " \n"], [], none,
                [.loadConfigCall, .newManagerCall config,
                  .listCall mngr ref]⟩
          | none =>
              ⟨[], [], none,
                [.loadConfigCall, .newManagerCall config,
                  .listCall mngr ref]⟩

/-- The `list` command of `cmd/list.go`: zero arguments use
`core.RefLatest`, one argument is the ref, more than one writes
`requires 0 or 1 argument` to standard error and exits with code 1. -/
def listRun (env : ListEnv) (args : List String) : CmdTrace :=
  match args with
  | [] => listResolve env RefLatest
  | [a] => listResolve env a
  | _ :: _ :: _ =>
      ⟨[], ["requires 0 or 1 argument\n"], some 1, []⟩

/-- The List calls recorded in a trace. -/
def listCallsOf (t : CmdTrace) : List (String × String) :=
  t.events.filterMap (fun e =>
    match e with
    | .listCall m r => some (m, r)
    | _ => none)

/-- The fixed repository content of the listing tests
(`Test_List` in `repo_integration_test.go`): exactly the keys
`dir/0, dir/1, dir/2, dir/3/0, dir/3/1, dir/3/2`, each a 1-byte object
standing for the uploaded test file. -/
def exampleRepo : RepoState :=
  ⟨[("dir/0", [7]), ("dir/1", [7]), ("dir/2", [7]),
    ("dir/3/0", [7]), ("dir/3/1", [7]), ("dir/3/2", [7])]⟩

/-- `exampleRepo` together with a sibling key `dir-12345`, for the
prefix-boundary test. -/
def exampleRepoSib : RepoState :=
  ⟨exampleRepo.objects ++ [("dir-12345", [7])]⟩

/-- A `ListEnv` in which every collaborator of the `list` command
succeeds. -/
def envAllOk : ListEnv := ⟨.ok "config", fun _ => .ok "mngr", fun _ _ => none⟩

/-- A `ListEnv` whose `LoadConfig` fails. -/
def envCfgErr : ListEnv :=
  ⟨.error "no config", fun _ => .ok "mngr", fun _ _ => none⟩

/-- A `ListEnv` whose `NewArtifactManager` fails. -/
def envMngrErr : ListEnv :=
  ⟨.ok "config", fun _ => .error "no mngr", fun _ _ => none⟩

/-- A `ListEnv` whose `mngr.List` fails (e.g. an unresolvable ref). -/
def envListErr : ListEnv :=
  ⟨.ok "config", fun _ => .ok "mngr", fun _ _ => some "ref not found"⟩

/-! ## Supporting lemmas -/

theorem lookup_setKey {α : Type} (p : String) (b : α) (l : List (String × α)) :
    lookupKey p (setKey p b l) = some b := by
  simp [setKey, lookupKey]

theorem lookup_filter_self {α : Type} (p : String) (l : List (String × α)) :
    lookupKey p (l.filter (fun kv => kv.1 != p)) = none := by
  induction l with
  | nil => rfl
  | cons kv rest ih =>
      by_cases h : kv.1 = p
      · simp [List.filter_cons, h, ih]
      · simp [List.filter_cons, h, lookupKey, ih]

theorem any_filter_false {α : Type} (f q : α → Bool) (l : List α)
    (h : l.any f = false) : (l.filter q).any f = false := by
  rw [List.any_eq_false] at h ⊢
  intro x hx
  exact h x (List.mem_filter.mp hx).1

theorem dirExists_delete (p q : String) (s : RepoState)
    (h : dirExists p s = false) :
    dirExists p (RepoState.delete q s) = false :=
  any_filter_false _ _ _ h

theorem writeFiles_fail (files : List (String × Option Bytes)) (r : RepoState)
    (h : ∃ f ∈ files, f.2 = none) : (writeFiles files r).1 = false := by
  induction files generalizing r with
  | nil => simp at h
  | cons f rest ih =>
      obtain ⟨p, ob⟩ := f
      cases ob with
      | none => rfl
      | some b =>
          obtain ⟨g, hg, hg2⟩ := h
          rcases List.mem_cons.mp hg with hgf | hgr
          · rw [hgf] at hg2
            simp at hg2
          · exact ih (RepoState.upload b p r) ⟨g, hgr, hg2⟩

theorem resolve_publish_latest (ref : String) (m : Manifest)
    (vs : VersionState) :
    resolve RefLatest (publishVersion ref m vs) = .ok m := by
  unfold resolve publishVersion
  rw [if_pos rfl]
  simp [lookup_setKey]

theorem resolve_publish_self (ref : String) (m : Manifest) (vs : VersionState)
    (h : ref ≠ RefLatest) :
    resolve ref (publishVersion ref m vs) = .ok m := by
  unfold resolve
  rw [if_neg h]
  simp [publishVersion, lookup_setKey]

theorem listResolve_trace (env : ListEnv) (ref : String) :
    (listResolve env ref).stderr = [] ∧ (listResolve env ref).exitCode = none
    ∧ ∀ c ∈ listCallsOf (listResolve env ref), c.2 = ref := by
  cases hc : env.loadConfig with
  | error e => simp [listResolve, hc, listCallsOf]
  | ok cfg =>
      cases hm : env.newManager cfg with
      | error e => simp [listResolve, hc, hm, listCallsOf]
      | ok m =>
          cases hl : env.listResult m ref with
          | none => simp [listResolve, hc, hm, hl, listCallsOf]
          | some e => simp [listResolve, hc, hm, hl, listCallsOf]

theorem listResolve_order (env : ListEnv) (ref : String) :
    (listCallsOf (listResolve env ref)).length ≤ 1
    ∧ ∀ m r, Event.listCall m r ∈ (listResolve env ref).events →
        r = ref
        ∧ ∃ cfg, env.loadConfig = .ok cfg ∧ env.newManager cfg = .ok m
          ∧ (listResolve env ref).events =
              [.loadConfigCall, .newManagerCall cfg, .listCall m r] := by
  cases hc : env.loadConfig with
  | error e =>
      refine ⟨by simp [listResolve, hc, listCallsOf], ?_⟩
      intro m r hmem
      simp [listResolve, hc] at hmem
  | ok cfg =>
      cases hm : env.newManager cfg with
      | error e =>
          refine ⟨by simp [listResolve, hc, hm, listCallsOf], ?_⟩
          intro m r hmem
          simp [listResolve, hc, hm] at hmem
      | ok mg =>
          cases hl : env.listResult mg ref with
          | none =>
              refine ⟨by simp [listResolve, hc, hm, hl, listCallsOf], ?_⟩
              intro m r hmem
              simp [listResolve, hc, hm, hl] at hmem
              obtain ⟨hmg, href⟩ := hmem
              subst hmg
              subst href
              exact ⟨rfl, cfg, rfl, hm, by simp [listResolve, hc, hm, hl]⟩
          | some e =>
              refine ⟨by simp [listResolve, hc, hm, hl, listCallsOf], ?_⟩
              intro m r hmem
              simp [listResolve, hc, hm, hl] at hmem
              obtain ⟨hmg, href⟩ := hmem
              subst hmg
              subst href
              exact ⟨rfl, cfg, rfl, hm, by simp [listResolve, hc, hm, hl]⟩

/-! ## Claims -/

/-- Claim C1: for every backend state, every source-file content `f`
(covering the sizes 0, 1KB and 10MB) and every RepoPath `p`, uploading `f`
to `p` and then downloading `p` yields exactly the bytes of `f` — Download
is a byte-exact round-trip inverse of Upload; equal bytes have equal sha1
digests. -/
theorem download_upload_roundtrip (s : RepoState) (f : Bytes) (p : String) :
    RepoState.download p (RepoState.upload f p s) = .ok f := by
  simp [RepoState.download, RepoState.upload, lookup_setKey]

/-- Claim C2: on the repository holding exactly the keys
`dir/0, dir/1, dir/2, dir/3/0, dir/3/1, dir/3/2`, `List "dir"` returns
exactly the 4 immediate children — `0`, `1`, `2` as files and `3` as one
deduplicated pseudo-directory entry — and `List "dir/3"` returns exactly
the 3 file entries `0`, `1`, `2`. -/
theorem list_grouping :
    RepoState.list "dir" exampleRepo =
      .ok [⟨"0", false, 1⟩, ⟨"1", false, 1⟩, ⟨"2", false, 1⟩, ⟨"3", true, 0⟩]
    ∧ RepoState.list "dir/3" exampleRepo =
      .ok [⟨"0", false, 1⟩, ⟨"1", false, 1⟩, ⟨"2", false, 1⟩] :=
  ⟨rfl, rfl⟩

/-- Claim C3: `List p` on any state in which `p/` bounds no stored key
returns an empty slice and no error; the prefix match respects the `/`
delimiter, so with the keys under `dir/` present plus the sibling key
`dir-12345`, `List "dir-12345"` is empty and `List "dir"` is exactly what
it is without the sibling key. -/
theorem list_nonexistent (s : RepoState) (p : String)
    (h : ∀ kv ∈ s.objects, stripPref (p.data ++ ['/']) kv.1.data = none) :
    RepoState.list p s = .ok []
    ∧ RepoState.list "dir-12345" exampleRepoSib = .ok []
    ∧ RepoState.list "dir" exampleRepoSib = RepoState.list "dir" exampleRepo := by
  refine ⟨?_, rfl, rfl⟩
  have hnil : (s.objects.filterMap
      (fun kv => (stripPref (p.data ++ ['/']) kv.1.data).map
        (fun suf => (suf, kv.2)))) = [] := by
    rw [List.filterMap_eq_nil_iff]
    intro kv hkv
    rw [h kv hkv]
    rfl
  simp [RepoState.list, hnil]

/-- Witness for C3 at the concrete state of the listing test and the
query `nonexistent`. -/
theorem list_nonexistent_witness :
    RepoState.list "nonexistent" exampleRepo = .ok []
    ∧ RepoState.list "dir-12345" exampleRepoSib = .ok []
    ∧ RepoState.list "dir" exampleRepoSib = RepoState.list "dir" exampleRepo :=
  list_nonexistent exampleRepo "nonexistent" (by decide)

/-- Claim C4: when an artifact Upload under ref `v1.0.0` succeeds,
resolving `latest` yields the same manifest as resolving `v1.0.0`
explicitly; and on a repository that never had a successful upload,
resolving `latest` fails with `NoVersionsError`. -/
theorem latest_after_upload (st : ArtifactState)
    (files : List (String × Option Bytes))
    (h : (uploadArtifact files "v1.0.0" st).1 = true) :
    resolve RefLatest (uploadArtifact files "v1.0.0" st).2.versions =
      resolve "v1.0.0" (uploadArtifact files "v1.0.0" st).2.versions
    ∧ resolve RefLatest emptyVersions = .error .noVersions := by
  refine ⟨?_, rfl⟩
  have hw : (writeFiles files st.repo).1 = true := by
    by_contra hb
    rw [Bool.not_eq_true] at hb
    simp [uploadArtifact, hb] at h
  simp only [uploadArtifact, hw, if_true]
  rw [resolve_publish_latest, resolve_publish_self _ _ _ (by decide)]

/-- Witness for C4: a one-file upload into the empty repository. -/
theorem latest_after_upload_witness :
    resolve RefLatest
        (uploadArtifact [("a", some [1])] "v1.0.0"
          ⟨emptyRepo, emptyVersions⟩).2.versions =
      resolve "v1.0.0"
        (uploadArtifact [("a", some [1])] "v1.0.0"
          ⟨emptyRepo, emptyVersions⟩).2.versions
    ∧ resolve RefLatest emptyVersions = .error .noVersions :=
  latest_after_upload ⟨emptyRepo, emptyVersions⟩ [("a", some [1])] rfl

/-- Claim C5: an artifact Upload in which some file transfer fails reports
failure, leaves the version bookkeeping (manifests and `latest` pointer)
exactly as before, hence `latest` still resolves to its prior value, and
the partial version is not resolvable when its ref was not already
present. -/
theorem failed_upload_preserves_latest (files : List (String × Option Bytes))
    (ref : String) (st : ArtifactState)
    (h : ∃ f ∈ files, f.2 = none) :
    (uploadArtifact files ref st).1 = false
    ∧ (uploadArtifact files ref st).2.versions = st.versions
    ∧ resolve RefLatest (uploadArtifact files ref st).2.versions =
        resolve RefLatest st.versions
    ∧ (lookupKey ref st.versions.manifests = none → ref ≠ RefLatest →
        resolve ref (uploadArtifact files ref st).2.versions =
          .error .refNotFound) := by
  have hw : (writeFiles files st.repo).1 = false := writeFiles_fail files st.repo h
  have hv : (uploadArtifact files ref st).2.versions = st.versions := by
    simp [uploadArtifact, hw]
  refine ⟨by simp [uploadArtifact, hw], hv, by rw [hv], ?_⟩
  intro hlook hne
  rw [hv]
  unfold resolve
  rw [if_neg hne, hlook]

/-- Witness for C5: a one-file upload whose only transfer fails, against
the empty repository. -/
theorem failed_upload_preserves_latest_witness :
    (uploadArtifact [("a", none)] "v1.0.0" ⟨emptyRepo, emptyVersions⟩).1 = false
    ∧ (uploadArtifact [("a", none)] "v1.0.0"
        ⟨emptyRepo, emptyVersions⟩).2.versions =
        (⟨emptyRepo, emptyVersions⟩ : ArtifactState).versions
    ∧ resolve RefLatest
        (uploadArtifact [("a", none)] "v1.0.0"
          ⟨emptyRepo, emptyVersions⟩).2.versions =
        resolve RefLatest (⟨emptyRepo, emptyVersions⟩ : ArtifactState).versions
    ∧ resolve "v1.0.0"
        (uploadArtifact [("a", none)] "v1.0.0"
          ⟨emptyRepo, emptyVersions⟩).2.versions = .error .refNotFound := by
  have t := failed_upload_preserves_latest [("a", none)] "v1.0.0"
    ⟨emptyRepo, emptyVersions⟩ (by decide)
  exact ⟨t.1, t.2.1, t.2.2.1, t.2.2.2 rfl (by decide)⟩

/-- Claim C6: after uploading content `f` to any RepoPath `p`, `Stat p`
succeeds with `IsDir = false` and `Name` equal to the last path component
of `p` — in particular, for the multi-segment path `this/is/my/bin` of the
transfer test the name is `bin`, never the full path. -/
theorem stat_after_upload (s : RepoState) (f : Bytes) (p : String) :
    RepoState.stat p (RepoState.upload f p s) =
      .ok ⟨lastSegment p, false, f.length⟩
    ∧ RepoState.stat "this/is/my/bin" (RepoState.upload f "this/is/my/bin" s) =
      .ok ⟨"bin", false, f.length⟩ := by
  have key : ∀ q : String, RepoState.stat q (RepoState.upload f q s) =
      .ok ⟨lastSegment q, false, f.length⟩ := by
    intro q
    simp [RepoState.stat, RepoState.upload, lookup_setKey]
  have hl : lastSegment "this/is/my/bin" = "bin" := rfl
  exact ⟨key p, by rw [key "this/is/my/bin", hl]⟩

/-- Claim C7: `Stat p` fails with `NotFoundError` on every state in which
nothing exists at `p` — no object is stored at exactly `p` and no key lies
under `p/` — and in particular it fails after `Delete p` removes the
object (the delete leaves `p` without file or directory). -/
theorem stat_absent (s : RepoState) (p : String)
    (hf : lookupKey p s.objects = none) (hd : dirExists p s = false) :
    RepoState.stat p s = .error .notFound
    ∧ RepoState.stat p (RepoState.delete p s) = .error .notFound := by
  constructor
  · simp [RepoState.stat, hf, hd]
  · have h1 : lookupKey p (RepoState.delete p s).objects = none :=
      lookup_filter_self p s.objects
    have h2 : dirExists p (RepoState.delete p s) = false :=
      dirExists_delete p p s hd
    simp [RepoState.stat, h1, h2]

/-- Witness for C7 at the concrete listing-test state and a path that was
never uploaded. -/
theorem stat_absent_witness :
    RepoState.stat "nope" exampleRepo = .error .notFound
    ∧ RepoState.stat "nope" (RepoState.delete "nope" exampleRepo) =
      .error .notFound :=
  stat_absent exampleRepo "nope" (by decide) (by decide)

/-- Claim C8: the `list` command with zero arguments proceeds with the ref
`latest` (no usage error, and any `mngr.List` call uses `latest`); with
exactly one argument it proceeds with that argument as the ref; with two
or more arguments it writes `requires 0 or 1 argument` to standard error
and exits with a non-zero code. -/
theorem listCmd_args (env : ListEnv) (a b : String) (rest : List String) :
    ((listRun env []).stderr = [] ∧ (listRun env []).exitCode = none
      ∧ ∀ c ∈ listCallsOf (listRun env []), c.2 = RefLatest)
    ∧ ((listRun env [a]).stderr = [] ∧ (listRun env [a]).exitCode = none
      ∧ ∀ c ∈ listCallsOf (listRun env [a]), c.2 = a)
    ∧ ((listRun env (a :: b :: rest)).stderr = ["requires 0 or 1 argument\n"]
      ∧ ∃ k, (listRun env (a :: b :: rest)).exitCode = some k ∧ k ≠ 0) :=
  ⟨listResolve_trace env RefLatest, listResolve_trace env a,
    rfl, ⟨1, rfl, Nat.one_ne_zero⟩⟩

/-- Witness for C8 in an environment where every collaborator succeeds:
the zero-argument run calls List with the ref `latest`, the one-argument
run with the given ref. -/
theorem listCmd_args_witness :
    ("mngr", RefLatest).2 = RefLatest
    ∧ ("mngr", "v1.0.0").2 = "v1.0.0"
    ∧ (listRun envAllOk ["a", "b"]).stderr = ["requires 0 or 1 argument\n"] :=
  ⟨(listCmd_args envAllOk "a" "b" []).1.2.2 ("mngr", RefLatest) (by decide),
    (listCmd_args envAllOk "v1.0.0" "b" []).2.1.2.2 ("mngr", "v1.0.0")
      (by decide),
    (listCmd_args envAllOk "a" "b" []).2.2.1⟩

/-- Claim C9: every non-CLI error of the `list` command — configuration
load failure, manager construction failure, or listing failure — is
printed to standard output as `list <error>` and the process does not
exit with a code. -/
theorem listCmd_soft_errors (env : ListEnv) (ref e : String) :
    (env.loadConfig = .error e →
      (listRun env [ref]).stdout = ["list " ++ e ++ " \n"]
      ∧ (listRun env [ref]).exitCode = none)
    ∧ (∀ cfg, env.loadConfig = .ok cfg → env.newManager cfg = .error e →
      (listRun env [ref]).stdout = ["list " ++ e ++ " \n"]
      ∧ (listRun env [ref]).exitCode = none)
    ∧ (∀ cfg m, env.loadConfig = .ok cfg → env.newManager cfg = .ok m →
      env.listResult m ref = some e →
      (listRun env [ref]).stdout = ["list " ++ e ++ " \n"]
      ∧ (listRun env [ref]).exitCode = none) := by
  refine ⟨?_, ?_, ?_⟩
  · intro hc
    constructor <;> simp [listRun, listResolve, hc]
  · intro cfg hc hm
    constructor <;> simp [listRun, listResolve, hc, hm]
  · intro cfg m hc hm hl
    constructor <;> simp [listRun, listResolve, hc, hm, hl]

/-- Witness for C9: each of the three failing collaborators, on concrete
environments. -/
theorem listCmd_soft_errors_witness :
    ((listRun envCfgErr ["v1.0.0"]).stdout = ["list no config \n"]
      ∧ (listRun envCfgErr ["v1.0.0"]).exitCode = none)
    ∧ ((listRun envMngrErr ["v1.0.0"]).stdout = ["list no mngr \n"]
      ∧ (listRun envMngrErr ["v1.0.0"]).exitCode = none)
    ∧ ((listRun envListErr ["v1.0.0"]).stdout = ["list ref not found \n"]
      ∧ (listRun envListErr ["v1.0.0"]).exitCode = none) :=
  ⟨(listCmd_soft_errors envCfgErr "v1.0.0" "no config").1 rfl,
    (listCmd_soft_errors envMngrErr "v1.0.0" "no mngr").2.1 "config" rfl rfl,
    (listCmd_soft_errors envListErr "v1.0.0" "ref not found").2.2
      "config" "mngr" rfl rfl rfl⟩

/-- Claim C10: in every run of the `list` command, `mngr.List` is called
at most once; a call happens only when argument validation passed
(at most one argument), `LoadConfig` succeeded and `NewArtifactManager`
succeeded, and then the collaborator calls are exactly
LoadConfig, NewArtifactManager, List in that order; a usage error makes
no collaborator call at all and exits with code exactly 1. -/
theorem listCmd_call_order (env : ListEnv) (args : List String) :
    (listCallsOf (listRun env args)).length ≤ 1
    ∧ (∀ m r, Event.listCall m r ∈ (listRun env args).events →
        args.length ≤ 1
        ∧ ∃ cfg, env.loadConfig = .ok cfg ∧ env.newManager cfg = .ok m
          ∧ (listRun env args).events =
              [.loadConfigCall, .newManagerCall cfg, .listCall m r])
    ∧ (2 ≤ args.length →
        (listRun env args).exitCode = some 1
        ∧ (listRun env args).events = []) := by
  cases args with
  | nil =>
      obtain ⟨h1, h2⟩ := listResolve_order env RefLatest
      refine ⟨h1, ?_, ?_⟩
      · intro m r hmem
        exact ⟨by decide, (h2 m r hmem).2⟩
      · intro hlen
        exact absurd hlen (by decide)
  | cons a rest =>
      cases rest with
      | nil =>
          obtain ⟨h1, h2⟩ := listResolve_order env a
          refine ⟨h1, ?_, ?_⟩
          · intro m r hmem
            exact ⟨by simp, (h2 m r hmem).2⟩
          · intro hlen
            simp at hlen
      | cons b rest2 =>
          refine ⟨by simp [listRun, listCallsOf], ?_, fun _ => ⟨rfl, rfl⟩⟩
          intro m r hmem
          simp [listRun] at hmem

/-- Witness for C10: the all-success environment with one argument makes
exactly the ordered calls, and a two-argument run makes none and exits
with code 1. -/
theorem listCmd_call_order_witness :
    (["v1.0.0"].length ≤ 1
      ∧ ∃ cfg, envAllOk.loadConfig = .ok cfg
        ∧ envAllOk.newManager cfg = .ok "mngr"
        ∧ (listRun envAllOk ["v1.0.0"]).events =
            [.loadConfigCall, .newManagerCall cfg, .listCall "mngr" "v1.0.0"])
    ∧ ((listRun envAllOk ["a", "b"]).exitCode = some 1
      ∧ (listRun envAllOk ["a", "b"]).events = []) :=
  ⟨(listCmd_call_order envAllOk ["v1.0.0"]).2.1 "mngr" "v1.0.0" (by decide),
    (listCmd_call_order envAllOk ["a", "b"]).2.2 (by decide)⟩

end ArtiVC
